import Mathlib

/-!
Verification development for the PDF-to-JSON document structure
reconstruction engine (`pdf_to_json.py`).

The Python source is shallowly embedded below.  Conventions:

* Font sizes.  Every use of a span's size in the source first applies
  `round(size, 1)` (in `gather_font_sizes` and in the per-line
  `max_size` computation); the unrounded float is never consulted.
  We therefore represent a span's size exactly as an integer number of
  tenths of a point (`12.0pt ↦ 120`), the value after rounding, and the
  tolerance `tol=0.5` becomes `5`.  Rounding ties of Python's float
  `round` are outside the model since no observable behaviour below
  depends on them.
* Python truthiness of an optional size (`if section_size and ...`)
  is `truthySize`: the value is present and nonzero.
* Whitespace.  Python's `str.strip`/`str.split` split on Unicode
  whitespace; we model the whitespace classes that can occur in the
  properties below (ASCII whitespace and the non-breaking space
  U+00A0), as `isPySpace`.
* External collaborators (camelot, PIL, pytesseract, pdf2image) are
  modelled as oracle inputs returning `Except Unit` values: `.error`
  models the call raising an exception, `.ok` a normal return.
-/

/-- Characters treated as whitespace by Python's `str.strip`, `str.split`
and the regex class `\s` in the inputs of interest (ASCII whitespace and
the non-breaking space `\xa0`). -/
def isPySpace (c : Char) : Bool :=
  c = ' ' || c = '\t' || c = '\n' || c = '\r' || c = '\x0b' || c = '\x0c' || c = '\xa0'

/-- `str.strip()` on a character list: drop leading and trailing whitespace. -/
def pyStripList (l : List Char) : List Char :=
  ((l.dropWhile isPySpace).reverse.dropWhile isPySpace).reverse

/-- Python `s.strip()`. -/
def pyStrip (s : String) : String :=
  ⟨pyStripList s.data⟩

/-- The character substitution of `text.replace('\xa0', ' ')` in `clean_line`. -/
def replaceNbsp (c : Char) : Char :=
  if c = '\xa0' then ' ' else c

/-- Python `s.split()` (split on whitespace runs, dropping empty pieces),
on character lists, with an accumulator for the word being read. -/
def pyWordsAux : List Char → List Char → List (List Char)
  | [], acc => if acc = [] then [] else [acc.reverse]
  | c :: cs, acc =>
    if isPySpace c then
      if acc = [] then pyWordsAux cs []
      else acc.reverse :: pyWordsAux cs []
    else pyWordsAux cs (c :: acc)

/-- `' '.join(words)` on character lists. -/
def joinSpace : List (List Char) → List Char
  | [] => []
  | [w] => w
  | w :: ws => w ++ ' ' :: joinSpace ws

/-- `clean_line` (pdf_to_json.py line 41):
`' '.join(text.replace('\xa0', ' ').split())`. -/
def clean_line (s : String) : String :=
  ⟨joinSpace (pyWordsAux (s.data.map replaceNbsp) [])⟩

/-- `' '.join(buf)` on strings, as used on the paragraph buffer. -/
def joinSpaceStr : List String → String
  | [] => ""
  | [s] => s
  | s :: ss => s ++ " " ++ joinSpaceStr ss

/-- Bool test for `needle in hay` (Python substring containment). -/
def containsSubL (needle : List Char) : List Char → Bool
  | [] => needle.isPrefixOf []
  | c :: cs => needle.isPrefixOf (c :: cs) || containsSubL needle cs

/-- `'Bold' in f or 'bold' in f.lower()` (pdf_to_json.py line 81). -/
def font_is_bold (f : String) : Bool :=
  containsSubL "Bold".data f.data || containsSubL "bold".data (f.data.map Char.toLower)

/-- Python `max` on integers. -/
def imax (a b : ℤ) : ℤ :=
  if a ≤ b then b else a

/-- Truthiness of an optional size (`if section_size and ...`):
present and nonzero. -/
def truthySize : Option ℤ → Bool
  | none => false
  | some q => q ≠ 0

/-! ## Data model -/

/-- A text span as delivered by `page.get_text("dict")`: its text, its
font size in tenths of a point (the value of `round(span["size"], 1)`),
and its font name. -/
structure Span where
  text : String
  size : ℤ
  font : String
deriving DecidableEq

/-- A line: an ordered list of spans. -/
structure PyLine where
  spans : List Span
deriving DecidableEq

/-- A page block: text (`type == 0`), image (`type == 1`), or other. -/
inductive Block where
  | text (lines : List PyLine)
  | image
  | other
deriving DecidableEq

/-- Result of `is_numbered_heading`: the numbering string, the stripped
title remainder, and `numbering.count('.') + 1`. -/
structure NumInfo where
  numbering : String
  title : String
  level : Nat
deriving DecidableEq

/-- Which branch of the per-line heading heuristics fired
(pdf_to_json.py lines 93-135, in code order). -/
inductive Rule where
  | bySectionSize
  | bySubsectionSize
  | byNumbering
  | byBold
  | byBody
deriving DecidableEq

/-- Classification outcome for one line. -/
inductive LineClass where
  | sectionHeading (text : String)
  | subsectionHeading (text : String)
  | body (text : String)
deriving DecidableEq

/-- A grid of cell strings (`t.df.values.tolist()`). -/
abbrev Grid := List (List String)

/-- One emitted content item (the dicts appended to `content`/`content_items`). -/
inductive ContentItem where
  | heading (level : Nat) (text : String)
  | paragraph (sect sub_section : Option String) (text : String)
  | chart (sect : Option String) (description : Option String) (chart_data : Option Grid)
  | table (sect : Option String) (description : Option String) (table_data : Grid)
deriving DecidableEq

/-- The mutable page-scoped state of
`extract_paragraphs_and_headings_from_page`: `current_section`,
`current_sub`, `paragraph_buffer`. -/
structure BuilderState where
  sec : Option String
  sub : Option String
  buf : List String
deriving DecidableEq

/-! ## is_numbered_heading (lines 29-39)

The regex is `^\s*(\d+(?:\.\d+)*)(?:\s+|-)\s*(.*)`.  Greedy matching of
this pattern never benefits from backtracking (after any digit run the
next character is neither a digit continuation nor a separator unless
the maximal-munch parse already succeeds), so it is implemented as a
deterministic maximal-munch parse.  `(.*)` without DOTALL stops at the
first newline, and `re.match` does not require the whole string to be
consumed. -/

/-- Parse the `(?:\.\d+)*` part: greedily consume `.digits` groups.
Returns the consumed characters and the remainder.  The fuel (first
argument) is the length of the input, which each step strictly
decreases by at least two. -/
def numTailFuel : Nat → List Char → List Char × List Char
  | 0, l => ([], l)
  | fuel + 1, l =>
    match l with
    | '.' :: cs =>
      let d := cs.takeWhile Char.isDigit
      if d = [] then ([], l)
      else
        let p := numTailFuel fuel (cs.drop d.length)
        ('.' :: (d ++ p.1), p.2)
    | _ => ([], l)

/-- `is_numbered_heading(text)` (pdf_to_json.py lines 29-39). -/
def is_numbered_heading (text : String) : Option NumInfo :=
  let l := text.data.dropWhile isPySpace
  let d0 := l.takeWhile Char.isDigit
  if d0 = [] then none
  else
    let rest := l.drop d0.length
    let p := numTailFuel rest.length rest
    let numbering := d0 ++ p.1
    match p.2 with
    | [] => none
    | c :: cs =>
      if isPySpace c then
        let g2 := ((c :: cs).dropWhile isPySpace).takeWhile (fun x => x ≠ '\n')
        some ⟨⟨numbering⟩, pyStrip ⟨g2⟩, numbering.count '.' + 1⟩
      else if c = '-' then
        let g2 := (cs.dropWhile isPySpace).takeWhile (fun x => x ≠ '\n')
        some ⟨⟨numbering⟩, pyStrip ⟨g2⟩, numbering.count '.' + 1⟩
      else none

/-- `heading_text` as computed on lines 86-90: the numbering title if a
numbering matched and its title is nonempty (`num_info["title"] or
line_text`), otherwise the raw line text. -/
def numbered_heading_text (lineText : String) : String :=
  match is_numbered_heading lineText with
  | some n => if n.title = "" then lineText else n.title
  | none => lineText

/-- The per-line classification chain of
`extract_paragraphs_and_headings_from_page` (lines 83-135), in the
code's branch order: section-size rule, subsection-size rule, numbering
rule, bold-short heuristic, body.  Also reports which branch fired.
Sizes are in tenths of a point; `statistics.mean([x])` of the
one-element list `[subsection_size or section_size or max_size]` equals
`subsection_size` whenever `subsection_size` is truthy, which is the
only case in which that expression is evaluated. -/
def classify_line (section_size subsection_size : Option ℤ) (tol : ℤ)
    (lineText : String) (max_size : ℤ) (is_bold : Bool) : Rule × LineClass :=
  if truthySize section_size = true ∧ section_size.getD 0 - tol ≤ max_size then
    (Rule.bySectionSize, LineClass.sectionHeading (numbered_heading_text lineText))
  else if truthySize subsection_size = true ∧ subsection_size.getD 0 - tol ≤ max_size then
    (Rule.bySubsectionSize, LineClass.subsectionHeading (numbered_heading_text lineText))
  else
    match is_numbered_heading lineText with
    | some n =>
      if n.level = 1 then
        (Rule.byNumbering, LineClass.sectionHeading (numbered_heading_text lineText))
      else
        (Rule.byNumbering, LineClass.subsectionHeading (numbered_heading_text lineText))
    | none =>
      if is_bold = true ∧ lineText.length < 120 ∧
          (if truthySize subsection_size = true then subsection_size.getD 0 < max_size
           else max_size < max_size) then
        (Rule.byBold, LineClass.subsectionHeading lineText)
      else
        (Rule.byBody, LineClass.body lineText)


/-! ## Page structure builder (lines 44-152) -/

/-- `line_text` (line 76): concatenation of span texts, stripped. -/
def line_text (l : PyLine) : String :=
  pyStrip (String.join (l.spans.map Span.text))

/-- `max_size` (line 79): maximum span size of the line.  Python's
`max` requires a nonempty iterable; the builder only evaluates this
after checking `spans` is nonempty, and the `[]` case below is
unreachable there. -/
def line_max_size (l : PyLine) : ℤ :=
  match l.spans.map Span.size with
  | [] => 0
  | x :: xs => xs.foldl imax x

/-- `is_bold` (line 81): some span's font name contains `Bold`/`bold`. -/
def line_is_bold (l : PyLine) : Bool :=
  l.spans.any (fun s => font_is_bold s.font)

/-- `flush_paragraph` (lines 56-66): emit nothing on an empty buffer,
otherwise one paragraph item with text
`clean_line(' '.join(paragraph_buffer))`, tagged with the current
section and subsection. -/
def flush_paragraph (sec sub : Option String) (buf : List String) : List ContentItem :=
  if buf = [] then []
  else [ContentItem.paragraph sec sub (clean_line (joinSpaceStr buf))]

/-- Processing of one line of a text block (lines 71-135): skip
span-less and empty lines, otherwise classify and either emit a heading
(after flushing the buffer) or append the line text to the buffer.
The accumulator is the builder state plus the content emitted so far. -/
def step_line (ss subs : Option ℤ) (tol : ℤ)
    (acc : BuilderState × List ContentItem) (l : PyLine) : BuilderState × List ContentItem :=
  if l.spans = [] then acc
  else if line_text l = "" then acc
  else
    match classify_line ss subs tol (line_text l) (line_max_size l) (line_is_bold l) with
    | (_, LineClass.sectionHeading h) =>
      (⟨some h, none, []⟩,
       acc.2 ++ flush_paragraph acc.1.sec acc.1.sub acc.1.buf ++ [ContentItem.heading 1 h])
    | (_, LineClass.subsectionHeading h) =>
      (⟨acc.1.sec, some h, []⟩,
       acc.2 ++ flush_paragraph acc.1.sec acc.1.sub acc.1.buf ++ [ContentItem.heading 2 h])
    | (_, LineClass.body t) =>
      (⟨acc.1.sec, acc.1.sub, acc.1.buf ++ [t]⟩, acc.2)

/-- Processing of one block (lines 68-147): text blocks fold over their
lines; image blocks flush and emit a chart placeholder; other blocks
only flush. -/
def step_block (ss subs : Option ℤ) (tol : ℤ)
    (acc : BuilderState × List ContentItem) : Block → BuilderState × List ContentItem
  | Block.text lines => lines.foldl (step_line ss subs tol) acc
  | Block.image =>
    (⟨acc.1.sec, acc.1.sub, []⟩,
     acc.2 ++ flush_paragraph acc.1.sec acc.1.sub acc.1.buf
       ++ [ContentItem.chart acc.1.sec
             (some "image block detected (image data handled separately)") none])
  | Block.other =>
    (⟨acc.1.sec, acc.1.sub, []⟩, acc.2 ++ flush_paragraph acc.1.sec acc.1.sub acc.1.buf)

/-- `extract_paragraphs_and_headings_from_page` (lines 44-152): fold
over the page's blocks starting from empty state, then flush the
trailing buffer. -/
def extract_paragraphs_and_headings_from_page (blocks : List Block)
    (ss subs : Option ℤ) (tol : ℤ) : List ContentItem :=
  let r := blocks.foldl (step_block ss subs tol) (⟨none, none, []⟩, [])
  r.2 ++ flush_paragraph r.1.sec r.1.sub r.1.buf

/-! ## External collaborators (lines 154-227) -/

/-- The list of grids produced by the camelot calls in `extract_tables`
(lines 156-163): the first flavor's result if nonempty, otherwise the
other flavor's result; an exception from either call is caught by the
surrounding `try` and yields the empty list. -/
def resolved_tables (readPdf : String → Except Unit (List Grid)) (flavor_first : String) :
    List Grid :=
  match readPdf flavor_first with
  | Except.error _ => []
  | Except.ok ts =>
    if ts = [] then
      match readPdf (if flavor_first = "stream" then "lattice" else "stream") with
      | Except.error _ => []
      | Except.ok ts2 => ts2
    else ts

/-- `extract_tables` (lines 154-175): each extracted grid becomes a
table item with `section: None`, `description: None`, in extractor
order. -/
def extract_tables (readPdf : String → Except Unit (List Grid)) (flavor_first : String) :
    List ContentItem :=
  (resolved_tables readPdf flavor_first).map (fun g => ContentItem.table none none g)

/-- Outcome of handling one image of `page.get_images(full=True)`
(lines 181-210): either the `extract_image`/PIL step raised (outer
`except`), or it succeeded and the OCR oracle reports what
`pytesseract.image_to_string` would do on the decoded image. -/
inductive ImgRes where
  | decodeFail
  | ok (ocr : Except Unit String)

/-- The description of a successfully decoded image (lines 188-199):
`desc or "image detected"` where `desc` is the stripped OCR text when
OCR is enabled and does not raise, and `None` otherwise. -/
def image_desc (enable_ocr : Bool) (ocrRes : Except Unit String) : String :=
  if enable_ocr = true then
    match ocrRes with
    | Except.ok s => if pyStrip s = "" then "image detected" else pyStrip s
    | Except.error _ => "image detected"
  else "image detected"

/-- The chart item emitted for one image (lines 196-210). -/
def image_item (enable_ocr : Bool) : ImgRes → ContentItem
  | ImgRes.decodeFail =>
    ContentItem.chart none (some "image detected (failed to extract)") none
  | ImgRes.ok ocrRes =>
    ContentItem.chart none (some (image_desc enable_ocr ocrRes)) none

/-- `extract_images_and_ocr` (lines 177-211): one chart item per image
on the page. -/
def extract_images_and_ocr (enable_ocr : Bool) (imgs : List ImgRes) : List ContentItem :=
  imgs.map (image_item enable_ocr)

/-- `ocr_page_image` (lines 213-227): render the page (may raise, may
produce no images) and OCR the first rendered image (may raise); any
exception or absence of images yields `""`. -/
def ocr_page_image (render : Except Unit (List Unit)) (ocr : Except Unit String) : String :=
  match render with
  | Except.error _ => ""
  | Except.ok [] => ""
  | Except.ok (_ :: _) =>
    match ocr with
    | Except.error _ => ""
    | Except.ok s => s

/-! ## Document assembly (`parse_pdf`, lines 229-283) -/

/-- One page of the document together with its collaborator oracles:
its block tree (`page.get_text("dict")`), its raw text
(`page.get_text("text")`), its images, the camelot oracle per flavor,
and the pdf2image/pytesseract oracles of the OCR fallback. -/
structure Page where
  blocks : List Block
  rawText : String
  images : List ImgRes
  tables : String → Except Unit (List Grid)
  ocrRender : Except Unit (List Unit)
  ocrText : Except Unit String

/-- The content list assembled for one page (lines 244-272).  A page
whose raw text is empty or whitespace-only takes the OCR fallback path:
optionally one OCR paragraph, then the image charts; text structuring
and table extraction are skipped.  Otherwise the text-derived items are
followed by the table items and then the image charts (extending by an
empty list being a no-op, the `if tables:`/`if imgs:` guards are
dropped). -/
def page_content (ss subs : Option ℤ) (enable_ocr : Bool) (p : Page) : List ContentItem :=
  if pyStrip p.rawText = "" then
    (if enable_ocr = true ∧ pyStrip (ocr_page_image p.ocrRender p.ocrText) ≠ "" then
       [ContentItem.paragraph none none (clean_line (ocr_page_image p.ocrRender p.ocrText))]
     else [])
    ++ extract_images_and_ocr enable_ocr p.images
  else
    extract_paragraphs_and_headings_from_page p.blocks ss subs 5
      ++ extract_tables p.tables "stream"
      ++ extract_images_and_ocr enable_ocr p.images

/-- One entry of `result["pages"]`. -/
structure PageResult where
  page_number : Nat
  content : List ContentItem

/-- The page loop of `parse_pdf` (lines 241-277): `for i in
range(len(doc))` with `page_number = i + 1`. -/
def parse_pdf_pages (ss subs : Option ℤ) (enable_ocr : Bool) :
    Nat → List Page → List PageResult
  | _, [] => []
  | i, p :: ps =>
    ⟨i + 1, page_content ss subs enable_ocr p⟩ :: parse_pdf_pages ss subs enable_ocr (i + 1) ps

/-- All rounded span sizes of the document, in document order
(the `sizes` list of `gather_font_sizes` before dedup/sort). -/
def span_sizes_of_block : Block → List ℤ
  | Block.text lines => lines.flatMap (fun l => l.spans.map Span.size)
  | _ => []

/-- The raw size multiset collected by `gather_font_sizes` (lines 17-25). -/
def raw_font_sizes (doc : List Page) : List ℤ :=
  doc.flatMap (fun p => p.blocks.flatMap span_sizes_of_block)

/-- Insertion step of descending insertion sort. -/
def insertDesc (x : ℤ) : List ℤ → List ℤ
  | [] => [x]
  | y :: ys => if y ≤ x then x :: y :: ys else y :: insertDesc x ys

/-- Descending sort.  On a duplicate-free input this produces the same
list as Python's `sorted(set(sizes), reverse=True)`: the strictly
descending enumeration of the distinct values. -/
def sortDesc : List ℤ → List ℤ
  | [] => []
  | x :: xs => insertDesc x (sortDesc xs)

/-- `gather_font_sizes` (lines 15-27): `sorted(set(sizes), reverse=True)`. -/
def gather_font_sizes (doc : List Page) : List ℤ :=
  sortDesc (raw_font_sizes doc).dedup

/-- `parse_pdf` (lines 229-283): compute the font profile
(`section_size = sizes[0]`, `subsection_size = sizes[1]` when present),
then assemble every page in order. -/
def parse_pdf (doc : List Page) (enable_ocr : Bool) : List PageResult :=
  parse_pdf_pages (gather_font_sizes doc).head? (gather_font_sizes doc)[1]? enable_ocr 0 doc

/-- Tag tests on content items used in the assembly properties. -/
def isHeadingB : ContentItem → Bool
  | ContentItem.heading _ _ => true
  | _ => false

def isTableB : ContentItem → Bool
  | ContentItem.table _ _ _ => true
  | _ => false

/-- Invariant of the builder accumulator: every buffered line text
contains a non-whitespace character, and every paragraph item emitted
so far has non-empty text. -/
def accInv (acc : BuilderState × List ContentItem) : Prop :=
  (∀ s ∈ acc.1.buf, ∃ c ∈ s.data, isPySpace c = false) ∧
  (∀ s2 s3 t, ContentItem.paragraph s2 s3 t ∈ acc.2 → t ≠ "")

/-- Concrete page for the C5 witness: no extractable text, one image,
OCR enabled and recognizing a short sentence. -/
def pageC5 : Page :=
  ⟨[], "", [ImgRes.ok (Except.ok "Q3 revenue up 12%")],
   fun _ => Except.ok [], Except.ok [()], Except.ok "Q3 revenue up 12%"⟩

/-- Concrete page for the C6 witness: a numbered title line, one table
and one image whose OCR is not requested. -/
def pageC6 : Page :=
  ⟨[Block.text [⟨[⟨"1 Overview", 120, "F"⟩]⟩]], "1 Overview",
   [ImgRes.ok (Except.error ())],
   fun f => if f = "stream" then Except.ok [[["a", "b"], ["c", "d"]]] else Except.ok [],
   Except.ok [], Except.ok ""⟩

/-- Concrete page for the C9 witness: ordinary text, a failing table
extractor and an undecodable image. -/
def pageC9 : Page :=
  ⟨[Block.text [⟨[⟨"Body text here", 100, "Helvetica"⟩]⟩]], "Body text here",
   [ImgRes.decodeFail], fun _ => Except.error (), Except.ok [], Except.ok ""⟩

/-- Concrete document for the C7 witness: two distinct sizes 12.0 and 10.0. -/
def docC7 : List Page :=
  [⟨[Block.text [⟨[⟨"Title", 120, "F"⟩]⟩, ⟨[⟨"body", 100, "F"⟩]⟩]], "Title body",
    [], fun _ => Except.ok [], Except.ok [], Except.ok ""⟩]



/-! ## Helper lemmas: non-emptiness of normalized text -/

theorem string_data_append (a b : String) : (a ++ b).data = a.data ++ b.data := by
  cases a; cases b; rfl

theorem pyWordsAux_ne_nil_of_acc (l : List Char) :
    ∀ acc, acc ≠ [] → pyWordsAux l acc ≠ [] := by
  induction l with
  | nil => intro acc h; simp [pyWordsAux, h]
  | cons c cs ih =>
    intro acc h
    cases hc : isPySpace c with
    | true => simp [pyWordsAux, hc, h]
    | false =>
      simp only [pyWordsAux, hc, Bool.false_eq_true, if_false]
      exact ih (c :: acc) (by simp)

theorem pyWordsAux_ne_nil_of_mem (l : List Char) :
    ∀ acc, (∃ c ∈ l, isPySpace c = false) → pyWordsAux l acc ≠ [] := by
  induction l with
  | nil => simp
  | cons c cs ih =>
    rintro acc ⟨d, hd, hdn⟩
    cases hc : isPySpace c with
    | true =>
      have hdcs : d ∈ cs := by
        rcases List.mem_cons.mp hd with h | h
        · rw [h, hc] at hdn; cases hdn
        · exact h
      by_cases hacc : acc = []
      · simpa [pyWordsAux, hc, hacc] using ih [] ⟨d, hdcs, hdn⟩
      · simp [pyWordsAux, hc, hacc]
    | false =>
      simp only [pyWordsAux, hc, Bool.false_eq_true, if_false]
      exact pyWordsAux_ne_nil_of_acc cs (c :: acc) (by simp)

theorem nil_not_mem_pyWordsAux (l : List Char) : ∀ acc, [] ∉ pyWordsAux l acc := by
  induction l with
  | nil =>
    intro acc
    by_cases hacc : acc = []
    · simp [pyWordsAux, hacc]
    · simp only [pyWordsAux, hacc, if_false, List.mem_singleton]
      intro h
      exact hacc (List.reverse_eq_nil_iff.mp h.symm)
  | cons c cs ih =>
    intro acc
    cases hc : isPySpace c with
    | true =>
      by_cases hacc : acc = []
      · simpa [pyWordsAux, hc, hacc] using ih []
      · simp only [pyWordsAux, hc, if_true, hacc, if_false, List.mem_cons]
        push_neg
        refine ⟨?_, ih []⟩
        intro h
        exact hacc (List.reverse_eq_nil_iff.mp h.symm)
    | false =>
      simp only [pyWordsAux, hc, Bool.false_eq_true, if_false]
      exact ih (c :: acc)

theorem joinSpace_ne_nil : ∀ ws : List (List Char), ws ≠ [] → [] ∉ ws → joinSpace ws ≠ [] := by
  intro ws h1 h2
  match ws with
  | [w] =>
    have : w ≠ [] := by intro h; exact h2 (by simp [h])
    simpa [joinSpace] using this
  | w :: w2 :: rest => simp [joinSpace]

theorem clean_line_ne_empty (s : String) (h : ∃ c ∈ s.data, isPySpace c = false) :
    clean_line s ≠ "" := by
  obtain ⟨c, hc, hcn⟩ := h
  have hrep : replaceNbsp c = c := by
    unfold replaceNbsp
    rw [if_neg]
    intro hEq
    rw [hEq] at hcn
    exact absurd hcn (by decide)
  have hmem : c ∈ s.data.map replaceNbsp := by
    have h0 := List.mem_map_of_mem replaceNbsp hc
    rwa [hrep] at h0
  have hW : pyWordsAux (s.data.map replaceNbsp) [] ≠ [] :=
    pyWordsAux_ne_nil_of_mem _ [] ⟨c, hmem, hcn⟩
  have hN : [] ∉ pyWordsAux (s.data.map replaceNbsp) [] := nil_not_mem_pyWordsAux _ []
  have hJ := joinSpace_ne_nil _ hW hN
  intro hEq
  exact hJ (congrArg String.data hEq)

theorem dropWhile_head_false (p : Char → Bool) :
    ∀ (l : List Char) x xs, l.dropWhile p = x :: xs → p x = false := by
  intro l
  induction l with
  | nil => intro x xs h; cases h
  | cons c cs ih =>
    intro x xs h
    rw [List.dropWhile_cons] at h
    by_cases hc : p c = true
    · rw [if_pos hc] at h; exact ih x xs h
    · rw [if_neg hc] at h
      injection h with h1 _
      rw [← h1]
      exact Bool.not_eq_true _ |>.mp hc

theorem pyStripList_good (l : List Char) (h : pyStripList l ≠ []) :
    ∃ c ∈ pyStripList l, isPySpace c = false := by
  unfold pyStripList at h ⊢
  cases hv : ((l.dropWhile isPySpace).reverse.dropWhile isPySpace) with
  | nil => exact absurd (by rw [hv]; rfl) h
  | cons w ws =>
    have hw : isPySpace w = false := dropWhile_head_false _ _ w ws hv
    exact ⟨w, List.mem_reverse.mpr (List.mem_cons_self w ws), hw⟩

theorem pyStripList_subset (l : List Char) : ∀ c ∈ pyStripList l, c ∈ l := by
  intro c hc
  unfold pyStripList at hc
  rw [List.mem_reverse] at hc
  have h1 := (List.dropWhile_sublist _).subset hc
  rw [List.mem_reverse] at h1
  exact (List.dropWhile_sublist _).subset h1

theorem pyStrip_self_good (s : String) (h : pyStrip s ≠ "") :
    ∃ c ∈ (pyStrip s).data, isPySpace c = false := by
  have hl : pyStripList s.data ≠ [] := by
    intro he
    apply h
    show (⟨pyStripList s.data⟩ : String) = ""
    rw [he]
  exact pyStripList_good s.data hl

theorem pyStrip_source_good (s : String) (h : pyStrip s ≠ "") :
    ∃ c ∈ s.data, isPySpace c = false := by
  obtain ⟨c, hc, hcn⟩ := pyStrip_self_good s h
  exact ⟨c, pyStripList_subset s.data c hc, hcn⟩

theorem joinSpaceStr_good (s : String) (rest : List String)
    (h : ∃ c ∈ s.data, isPySpace c = false) :
    ∃ c ∈ (joinSpaceStr (s :: rest)).data, isPySpace c = false := by
  obtain ⟨c, hc, hcn⟩ := h
  cases rest with
  | nil => exact ⟨c, hc, hcn⟩
  | cons s2 rest2 =>
    refine ⟨c, ?_, hcn⟩
    show c ∈ (s ++ " " ++ joinSpaceStr (s2 :: rest2)).data
    rw [string_data_append, string_data_append]
    exact List.mem_append.mpr (Or.inl (List.mem_append.mpr (Or.inl hc)))

theorem flush_paragraph_para (sec sub : Option String) (buf : List String)
    (hb : ∀ s ∈ buf, ∃ c ∈ s.data, isPySpace c = false) :
    ∀ s2 s3 t, ContentItem.paragraph s2 s3 t ∈ flush_paragraph sec sub buf → t ≠ "" := by
  intro s2 s3 t ht
  unfold flush_paragraph at ht
  by_cases hbuf : buf = []
  · rw [if_pos hbuf] at ht; cases ht
  · rw [if_neg hbuf] at ht
    simp only [List.mem_singleton, ContentItem.paragraph.injEq] at ht
    obtain ⟨-, -, h3⟩ := ht
    obtain ⟨s, rest, rfl⟩ : ∃ s rest, buf = s :: rest := by
      cases buf with
      | nil => exact absurd rfl hbuf
      | cons a b => exact ⟨a, b, rfl⟩
    have hg := joinSpaceStr_good s rest (hb s (List.mem_cons_self s rest))
    rw [h3]
    exact clean_line_ne_empty _ hg

/-! ## Builder invariant: emitted paragraphs have non-empty text -/

/-- The body branch of `classify_line` carries the raw line text. -/
theorem classify_line_body_text (ss subs : Option ℤ) (tol : ℤ)
    (lineText : String) (ms : ℤ) (b : Bool) (r : Rule) (t : String)
    (h : classify_line ss subs tol lineText ms b = (r, LineClass.body t)) : t = lineText := by
  unfold classify_line at h
  by_cases hA : truthySize ss = true ∧ ss.getD 0 - tol ≤ ms
  · rw [if_pos hA] at h; exact absurd (congrArg Prod.snd h) (by simp)
  rw [if_neg hA] at h
  by_cases hB : truthySize subs = true ∧ subs.getD 0 - tol ≤ ms
  · rw [if_pos hB] at h; exact absurd (congrArg Prod.snd h) (by simp)
  rw [if_neg hB] at h
  cases hn : is_numbered_heading lineText with
  | some n =>
    simp only [hn] at h
    by_cases hlv : n.level = 1
    · rw [if_pos hlv] at h; exact absurd (congrArg Prod.snd h) (by simp)
    · rw [if_neg hlv] at h; exact absurd (congrArg Prod.snd h) (by simp)
  | none =>
    simp only [hn] at h
    by_cases hC : b = true ∧ lineText.length < 120 ∧
        (if truthySize subs = true then subs.getD 0 < ms else ms < ms)
    · rw [if_pos hC] at h; exact absurd (congrArg Prod.snd h) (by simp)
    · rw [if_neg hC] at h
      have h2 := congrArg Prod.snd h
      injection h2 with h3
      exact h3.symm

theorem step_line_inv (ss subs : Option ℤ) (tol : ℤ)
    (acc : BuilderState × List ContentItem) (l : PyLine) (h : accInv acc) :
    accInv (step_line ss subs tol acc l) := by
  unfold step_line
  by_cases h1 : l.spans = []
  · rw [if_pos h1]; exact h
  rw [if_neg h1]
  by_cases h2 : line_text l = ""
  · rw [if_pos h2]; exact h
  rw [if_neg h2]
  rcases hcl : classify_line ss subs tol (line_text l) (line_max_size l) (line_is_bold l)
    with ⟨r, c⟩
  cases c with
  | sectionHeading ht =>
    refine ⟨?_, ?_⟩
    · intro s hs; cases hs
    · intro s2 s3 t hmem
      simp only [List.append_assoc, List.mem_append, List.mem_singleton] at hmem
      rcases hmem with hmem | hmem | hmem
      · exact h.2 s2 s3 t hmem
      · exact flush_paragraph_para _ _ _ h.1 s2 s3 t hmem
      · cases hmem
  | subsectionHeading ht =>
    refine ⟨?_, ?_⟩
    · intro s hs; cases hs
    · intro s2 s3 t hmem
      simp only [List.append_assoc, List.mem_append, List.mem_singleton] at hmem
      rcases hmem with hmem | hmem | hmem
      · exact h.2 s2 s3 t hmem
      · exact flush_paragraph_para _ _ _ h.1 s2 s3 t hmem
      · cases hmem
  | body t0 =>
    have ht0 : t0 = line_text l := classify_line_body_text _ _ _ _ _ _ _ _ hcl
    refine ⟨?_, h.2⟩
    intro s hs
    rw [List.mem_append, List.mem_singleton] at hs
    rcases hs with hs | hs
    · exact h.1 s hs
    · rw [hs, ht0]
      exact pyStrip_self_good _ h2

theorem foldl_pres {β : Type} (f : (BuilderState × List ContentItem) → β → (BuilderState × List ContentItem))
    (hf : ∀ acc b, accInv acc → accInv (f acc b)) :
    ∀ (bs : List β) acc, accInv acc → accInv (bs.foldl f acc) := by
  intro bs
  induction bs with
  | nil => intro acc h; exact h
  | cons b bs ih => intro acc h; exact ih _ (hf acc b h)

theorem step_block_inv (ss subs : Option ℤ) (tol : ℤ)
    (acc : BuilderState × List ContentItem) (b : Block) (h : accInv acc) :
    accInv (step_block ss subs tol acc b) := by
  cases b with
  | text lines =>
    exact foldl_pres _ (fun a l ha => step_line_inv ss subs tol a l ha) lines acc h
  | image =>
    refine ⟨?_, ?_⟩
    · intro s hs; cases hs
    · intro s2 s3 t hmem
      simp only [step_block, List.append_assoc, List.mem_append, List.mem_singleton] at hmem
      rcases hmem with hmem | hmem | hmem
      · exact h.2 s2 s3 t hmem
      · exact flush_paragraph_para _ _ _ h.1 s2 s3 t hmem
      · cases hmem
  | other =>
    refine ⟨?_, ?_⟩
    · intro s hs; cases hs
    · intro s2 s3 t hmem
      simp only [step_block, List.mem_append] at hmem
      rcases hmem with hmem | hmem
      · exact h.2 s2 s3 t hmem
      · exact flush_paragraph_para _ _ _ h.1 s2 s3 t hmem

theorem extract_no_empty_para (blocks : List Block) (ss subs : Option ℤ) (tol : ℤ) :
    ∀ s2 s3 t, ContentItem.paragraph s2 s3 t ∈
      extract_paragraphs_and_headings_from_page blocks ss subs tol → t ≠ "" := by
  have hin : accInv (blocks.foldl (step_block ss subs tol) (⟨none, none, []⟩, [])) := by
    refine foldl_pres _ (fun a b ha => step_block_inv ss subs tol a b ha) blocks _ ⟨?_, ?_⟩
    · intro s hs; cases hs
    · intro s2 s3 t hmem; cases hmem
  intro s2 s3 t ht
  simp only [extract_paragraphs_and_headings_from_page, List.mem_append] at ht
  rcases ht with ht | ht
  · exact hin.2 s2 s3 t ht
  · exact flush_paragraph_para _ _ _ hin.1 s2 s3 t ht

/-! ## Sorting lemmas for the font profile -/

theorem insertDesc_perm (x : ℤ) : ∀ l : List ℤ, List.Perm (insertDesc x l) (x :: l) := by
  intro l
  induction l with
  | nil => exact List.Perm.refl _
  | cons y ys ih =>
    unfold insertDesc
    by_cases hy : y ≤ x
    · rw [if_pos hy]
    · rw [if_neg hy]
      exact List.Perm.trans (List.Perm.cons y ih) (List.Perm.swap x y ys)

theorem sortDesc_perm : ∀ l : List ℤ, List.Perm (sortDesc l) l := by
  intro l
  induction l with
  | nil => exact List.Perm.refl _
  | cons x xs ih =>
    exact List.Perm.trans (insertDesc_perm x (sortDesc xs)) (List.Perm.cons x ih)

theorem insertDesc_sorted (x : ℤ) : ∀ l : List ℤ,
    l.Sorted (· ≥ ·) → (insertDesc x l).Sorted (· ≥ ·) := by
  intro l
  induction l with
  | nil => intro _; simp [insertDesc]
  | cons y ys ih =>
    intro hs
    rw [List.sorted_cons] at hs
    unfold insertDesc
    by_cases hy : y ≤ x
    · rw [if_pos hy]
      rw [List.sorted_cons]
      refine ⟨?_, List.sorted_cons.mpr hs⟩
      intro z hz
      rcases List.mem_cons.mp hz with hz | hz
      · rw [hz]; exact hy
      · exact le_trans (hs.1 z hz) hy
    · rw [if_neg hy]
      rw [List.sorted_cons]
      refine ⟨?_, ih hs.2⟩
      intro z hz
      have hz2 : z ∈ x :: ys := (insertDesc_perm x ys).mem_iff.mp hz
      rcases List.mem_cons.mp hz2 with hz2 | hz2
      · rw [hz2]; exact le_of_lt (lt_of_not_le hy)
      · exact hs.1 z hz2

theorem sortDesc_sorted : ∀ l : List ℤ, (sortDesc l).Sorted (· ≥ ·) := by
  intro l
  induction l with
  | nil => simp [sortDesc]
  | cons x xs ih => exact insertDesc_sorted x (sortDesc xs) ih

theorem gather_font_sizes_nodup (doc : List Page) : (gather_font_sizes doc).Nodup :=
  ((sortDesc_perm (raw_font_sizes doc).dedup).nodup_iff).mpr (List.nodup_dedup _)

theorem gather_font_sizes_sorted (doc : List Page) :
    (gather_font_sizes doc).Sorted (· > ·) := by
  have h1 : (gather_font_sizes doc).Sorted (· ≥ ·) := sortDesc_sorted _
  have h2 : (gather_font_sizes doc).Nodup := gather_font_sizes_nodup doc
  have h3 := List.Pairwise.and h1 h2
  exact h3.imp (fun hab => lt_of_le_of_ne hab.1.le (Ne.symm hab.2) |>.gt)

theorem gather_font_sizes_mem (doc : List Page) :
    ∀ q ∈ gather_font_sizes doc, q ∈ raw_font_sizes doc := by
  intro q hq
  exact List.mem_dedup.mp ((sortDesc_perm _).mem_iff.mp hq)

theorem gather_font_sizes_length (doc : List Page) :
    (gather_font_sizes doc).length = (raw_font_sizes doc).dedup.length :=
  (sortDesc_perm _).length_eq

/-! ## Further shape and assembly helpers -/

theorem image_item_shape (e : Bool) (img : ImgRes) :
    ∃ d, image_item e img = ContentItem.chart none (some d) none := by
  cases img with
  | decodeFail => exact ⟨_, rfl⟩
  | ok o => exact ⟨_, rfl⟩

theorem parse_pdf_pages_numbers (ss subs : Option ℤ) (e : Bool) :
    ∀ (ps : List Page) (i : Nat),
      (parse_pdf_pages ss subs e i ps).map PageResult.page_number
        = List.range' (i + 1) ps.length := by
  intro ps
  induction ps with
  | nil => intro i; rfl
  | cons p ps ih =>
    intro i
    show (i + 1) :: (parse_pdf_pages ss subs e (i + 1) ps).map PageResult.page_number
        = List.range' (i + 1) (ps.length + 1)
    rw [ih (i + 1)]
    rfl

/-- The bold-short branch of the per-line heuristics can never fire
with the tolerance `0.5` actually used: when `subsection_size` is
truthy, any line with `max_size > subsection_size` was already taken by
the subsection-size branch, and otherwise the bold condition is
`max_size > max_size`. -/
theorem classify_line_fst_ne_bold (ss subs : Option ℤ) (t : String) (ms : ℤ) (b : Bool) :
    (classify_line ss subs 5 t ms b).1 ≠ Rule.byBold := by
  unfold classify_line
  by_cases hA : truthySize ss = true ∧ ss.getD 0 - 5 ≤ ms
  · rw [if_pos hA]; simp
  rw [if_neg hA]
  by_cases hB : truthySize subs = true ∧ subs.getD 0 - 5 ≤ ms
  · rw [if_pos hB]; simp
  rw [if_neg hB]
  cases hn : is_numbered_heading t with
  | some n =>
    simp only
    by_cases hlv : n.level = 1
    · rw [if_pos hlv]; simp
    · rw [if_neg hlv]; simp
  | none =>
    simp only
    by_cases hC : b = true ∧ t.length < 120 ∧
        (if truthySize subs = true then subs.getD 0 < ms else ms < ms)
    · exfalso
      rcases hC with ⟨-, -, hC3⟩
      by_cases hts : truthySize subs = true
      · rw [if_pos hts] at hC3
        exact hB ⟨hts, by linarith⟩
      · rw [if_neg hts] at hC3
        exact lt_irrefl _ hC3
    · rw [if_neg hC]; simp

/-! ## Claim theorems -/

/-- C1: the claim says the numbering rule has first precedence, so that
`"2.1 Revenue Growth"` classifies as a subsection heading regardless of
font size.  The code checks the font-size rules first (its own comment
`numbered heading overrides sizes` notwithstanding): at section size
the line is emitted as a level-1 section heading.  The numbering parse
itself, and the classification at a small font size, agree with the
claim. -/
theorem C1_size_precedence :
    is_numbered_heading "2.1 Revenue Growth" = some ⟨"2.1", "Revenue Growth", 2⟩
  ∧ classify_line (some 120) (some 100) 5 "2.1 Revenue Growth" 120 false
      = (Rule.bySectionSize, LineClass.sectionHeading "Revenue Growth")
  ∧ classify_line (some 120) (some 100) 5 "2.1 Revenue Growth" 90 false
      = (Rule.byNumbering, LineClass.subsectionHeading "Revenue Growth") := by
  refine ⟨by decide, by decide, by decide⟩

/-- C2 counterexample: with both thresholds unset no input line is ever
classified by the bold-short heuristic, and in particular a bold short
non-numbered line is classified as body text, not as a subsection
heading. -/
theorem C2_counterexample :
    (∀ (t : String) (ms : ℤ) (b : Bool), (classify_line none none 5 t ms b).1 ≠ Rule.byBold)
  ∧ classify_line none none 5 "Strong Quarterly Results" 120 true
      = (Rule.byBody, LineClass.body "Strong Quarterly Results") := by
  refine ⟨fun t ms b => classify_line_fst_ne_bold none none t ms b, by decide⟩

/-- C2 amended: with no text spans anywhere both thresholds are unset
and classification degrades, without error (the classifier is total),
to numbering-only: every line is classified either by the numbering
rule or as body text, the numbering rule still yields both heading
levels, and the bold-short heuristic never fires because its threshold
condition degenerates to `max_size > max_size`. -/
theorem C2_amended :
    (∀ (t : String) (ms : ℤ) (b : Bool),
        (classify_line none none 5 t ms b).1 = Rule.byNumbering ∨
        (classify_line none none 5 t ms b).1 = Rule.byBody)
  ∧ classify_line none none 5 "2.1 Overview" 90 true
      = (Rule.byNumbering, LineClass.subsectionHeading "Overview")
  ∧ classify_line none none 5 "3 Results" 90 false
      = (Rule.byNumbering, LineClass.sectionHeading "Results") := by
  refine ⟨?_, by decide, by decide⟩
  intro t ms b
  unfold classify_line
  rw [if_neg (by simp [truthySize])]
  rw [if_neg (by simp [truthySize])]
  cases hn : is_numbered_heading t with
  | some n =>
    simp only
    by_cases hlv : n.level = 1
    · rw [if_pos hlv]; left; rfl
    · rw [if_neg hlv]; left; rfl
  | none =>
    simp only
    rw [if_neg ?_]
    · right; rfl
    · rintro ⟨-, -, hC3⟩
      rw [if_neg (by simp [truthySize])] at hC3
      exact lt_irrefl _ hC3

/-- C3: the bold-short fallback branch is unreachable for every input
line at the tolerance `0.5` the program uses: no classification is ever
produced by the bold heuristic. -/
theorem C3_bold_unreachable (ss subs : Option ℤ) (t : String) (ms : ℤ) (b : Bool) :
    (classify_line ss subs 5 t ms b).1 ≠ Rule.byBold :=
  classify_line_fst_ne_bold ss subs t ms b

/-- C4: flushing an empty buffer emits nothing; flushing a non-empty
buffer emits exactly one paragraph item carrying the current section
and subsection whose text is the buffered line texts joined by single
spaces and whitespace-normalized (`clean_line`); the documented example
`"Net\xa0 Income   grew"` normalizes to `"Net Income grew"`; and no
paragraph item emitted by the page builder ever has empty text. -/
theorem C4_flush_semantics :
    (∀ sec sub : Option String, flush_paragraph sec sub [] = [])
  ∧ (∀ (sec sub : Option String) (buf : List String), buf ≠ [] →
      flush_paragraph sec sub buf
        = [ContentItem.paragraph sec sub (clean_line (joinSpaceStr buf))])
  ∧ clean_line "Net\xa0 Income   grew" = "Net Income grew"
  ∧ (∀ (blocks : List Block) (ss subs : Option ℤ) (tol : ℤ)
      (s2 s3 : Option String) (t : String),
      ContentItem.paragraph s2 s3 t ∈ extract_paragraphs_and_headings_from_page blocks ss subs tol
      → t ≠ "") := by
  refine ⟨fun sec sub => rfl, ?_, by decide, ?_⟩
  · intro sec sub buf hb
    unfold flush_paragraph
    rw [if_neg hb]
  · intro blocks ss subs tol s2 s3 t ht
    exact extract_no_empty_para blocks ss subs tol s2 s3 t ht

theorem C4_witness :
    flush_paragraph (some "Financials") none ["Net\xa0 Income   grew"]
      = [ContentItem.paragraph (some "Financials") none
           (clean_line (joinSpaceStr ["Net\xa0 Income   grew"]))]
  ∧ "intro text" ≠ "" := by
  refine ⟨C4_flush_semantics.2.1 _ _ _ (by decide), ?_⟩
  exact C4_flush_semantics.2.2.2 [Block.text [⟨[⟨"intro text", 100, "F"⟩]⟩]] none none 5
    none none "intro text" (by decide)

/-- C5: on a page with no non-whitespace extractable text the content
list is an optional OCR paragraph (present only with OCR enabled and
non-empty recognized text, carrying no section or subsection) followed
by exactly one chart item per image; no heading, table or text-derived
item appears. -/
theorem C5_fallback_page (ss subs : Option ℤ) (e : Bool) (p : Page)
    (h : pyStrip p.rawText = "") :
    ∃ pre, page_content ss subs e p = pre ++ extract_images_and_ocr e p.images
      ∧ (pre = [] ∨ (e = true ∧ ∃ t, t ≠ "" ∧ pre = [ContentItem.paragraph none none t]))
      ∧ pre.length ≤ 1
      ∧ (extract_images_and_ocr e p.images).length = p.images.length
      ∧ (∀ it ∈ extract_images_and_ocr e p.images, ∃ d, it = ContentItem.chart none (some d) none)
      ∧ (∀ it ∈ page_content ss subs e p, isHeadingB it = false ∧ isTableB it = false) := by
  refine ⟨if e = true ∧ pyStrip (ocr_page_image p.ocrRender p.ocrText) ≠ "" then
      [ContentItem.paragraph none none (clean_line (ocr_page_image p.ocrRender p.ocrText))]
    else [], ?_, ?_, ?_, List.length_map _ _, ?_, ?_⟩
  · unfold page_content
    rw [if_pos h]
  · by_cases hc : e = true ∧ pyStrip (ocr_page_image p.ocrRender p.ocrText) ≠ ""
    · rw [if_pos hc]
      right
      exact ⟨hc.1, clean_line (ocr_page_image p.ocrRender p.ocrText),
        clean_line_ne_empty _ (pyStrip_source_good _ hc.2), rfl⟩
    · rw [if_neg hc]; left; rfl
  · by_cases hc : e = true ∧ pyStrip (ocr_page_image p.ocrRender p.ocrText) ≠ ""
    · rw [if_pos hc]; exact le_refl 1
    · rw [if_neg hc]; exact Nat.zero_le 1
  · intro it hit
    unfold extract_images_and_ocr at hit
    obtain ⟨img, -, rfl⟩ := List.mem_map.mp hit
    exact image_item_shape e img
  · intro it hit
    unfold page_content at hit
    rw [if_pos h, List.mem_append] at hit
    rcases hit with hit | hit
    · by_cases hc : e = true ∧ pyStrip (ocr_page_image p.ocrRender p.ocrText) ≠ ""
      · rw [if_pos hc, List.mem_singleton] at hit
        rw [hit]
        exact ⟨rfl, rfl⟩
      · rw [if_neg hc] at hit
        cases hit
    · unfold extract_images_and_ocr at hit
      obtain ⟨img, -, rfl⟩ := List.mem_map.mp hit
      obtain ⟨d, hd⟩ := image_item_shape e img
      rw [hd]
      exact ⟨rfl, rfl⟩

theorem C5_witness :
    page_content none none true pageC5
      = [ContentItem.paragraph none none "Q3 revenue up 12%",
         ContentItem.chart none (some "Q3 revenue up 12%") none]
  ∧ ∃ pre, page_content none none true pageC5 = pre ++ extract_images_and_ocr true pageC5.images
      ∧ (pre = [] ∨ (true = true ∧ ∃ t, t ≠ "" ∧ pre = [ContentItem.paragraph none none t])) := by
  refine ⟨by decide, ?_⟩
  obtain ⟨pre, h1, h2, -, -, -, -⟩ := C5_fallback_page none none true pageC5 (by decide)
  exact ⟨pre, h1, h2⟩

/-- C6: on a page with extractable text the content list is exactly the
text-derived item stream, then all table items in extractor order
tagged with no section, then one chart item per image tagged with no
section; tables and images are appended after the text stream, never
interleaved into it. -/
theorem C6_page_assembly (ss subs : Option ℤ) (e : Bool) (p : Page)
    (h : pyStrip p.rawText ≠ "") :
    page_content ss subs e p
      = extract_paragraphs_and_headings_from_page p.blocks ss subs 5
        ++ extract_tables p.tables "stream"
        ++ extract_images_and_ocr e p.images
  ∧ (∃ gs : List Grid, extract_tables p.tables "stream"
      = gs.map (fun g => ContentItem.table none none g))
  ∧ (∀ it ∈ extract_tables p.tables "stream", ∃ g, it = ContentItem.table none none g)
  ∧ (∀ it ∈ extract_images_and_ocr e p.images, ∃ d, it = ContentItem.chart none (some d) none) := by
  refine ⟨?_, ⟨resolved_tables p.tables "stream", rfl⟩, ?_, ?_⟩
  · unfold page_content
    rw [if_neg h]
  · intro it hit
    unfold extract_tables at hit
    obtain ⟨g, -, rfl⟩ := List.mem_map.mp hit
    exact ⟨g, rfl⟩
  · intro it hit
    unfold extract_images_and_ocr at hit
    obtain ⟨img, -, rfl⟩ := List.mem_map.mp hit
    exact image_item_shape e img

theorem C6_witness :
    page_content (some 120) (some 100) false pageC6
      = extract_paragraphs_and_headings_from_page pageC6.blocks (some 120) (some 100) 5
        ++ extract_tables pageC6.tables "stream"
        ++ extract_images_and_ocr false pageC6.images
  ∧ page_content (some 120) (some 100) false pageC6
      = [ContentItem.heading 1 "Overview",
         ContentItem.table none none [["a", "b"], ["c", "d"]],
         ContentItem.chart none (some "image detected") none] := by
  exact ⟨(C6_page_assembly (some 120) (some 100) false pageC6 (by decide)).1, by decide⟩

/-- C7: the font profile list is duplicate-free and strictly
descending; every profile value occurs among the observed line sizes;
with at least two distinct sizes the first two entries exist, are
strictly ordered and are observed sizes; with fewer than two distinct
sizes the subsection size is unset; with no text spans at all the
section size is unset. -/
theorem C7_font_profile (doc : List Page) :
    (gather_font_sizes doc).Nodup
  ∧ (gather_font_sizes doc).Sorted (· > ·)
  ∧ (∀ q ∈ gather_font_sizes doc, q ∈ raw_font_sizes doc)
  ∧ (2 ≤ (raw_font_sizes doc).dedup.length →
      ∃ a b, (gather_font_sizes doc).head? = some a ∧ (gather_font_sizes doc)[1]? = some b
        ∧ b < a ∧ a ∈ raw_font_sizes doc ∧ b ∈ raw_font_sizes doc)
  ∧ ((raw_font_sizes doc).dedup.length < 2 → (gather_font_sizes doc)[1]? = none)
  ∧ (raw_font_sizes doc = [] → (gather_font_sizes doc).head? = none) := by
  refine ⟨gather_font_sizes_nodup doc, gather_font_sizes_sorted doc,
    gather_font_sizes_mem doc, ?_, ?_, ?_⟩
  · intro h2
    have hlen : 2 ≤ (gather_font_sizes doc).length := by
      rw [gather_font_sizes_length]; exact h2
    obtain ⟨a, b, rest, hg⟩ : ∃ a b rest, gather_font_sizes doc = a :: b :: rest := by
      cases hg : gather_font_sizes doc with
      | nil => rw [hg] at hlen; simp at hlen
      | cons a t =>
        cases t with
        | nil => rw [hg] at hlen; simp at hlen
        | cons b rest => exact ⟨a, b, rest, rfl⟩
    have hs := gather_font_sizes_sorted doc
    rw [hg, List.sorted_cons] at hs
    refine ⟨a, b, by rw [hg]; rfl, by rw [hg]; simp, hs.1 b (List.mem_cons_self b rest), ?_, ?_⟩
    · exact gather_font_sizes_mem doc a (by rw [hg]; exact List.mem_cons_self a _)
    · exact gather_font_sizes_mem doc b
        (by rw [hg]; exact List.mem_cons.mpr (Or.inr (List.mem_cons_self b rest)))
  · intro hlt
    have hlen : (gather_font_sizes doc).length < 2 := by
      rw [gather_font_sizes_length]; exact hlt
    exact List.getElem?_eq_none (by omega)
  · intro hraw
    have hnil : gather_font_sizes doc = [] := by
      unfold gather_font_sizes
      rw [hraw]
      rfl
    rw [hnil]
    rfl

theorem C7_witness :
    (∃ a b, (gather_font_sizes docC7).head? = some a ∧ (gather_font_sizes docC7)[1]? = some b
      ∧ b < a ∧ a ∈ raw_font_sizes docC7 ∧ b ∈ raw_font_sizes docC7)
  ∧ (gather_font_sizes ([] : List Page)).head? = none := by
  exact ⟨(C7_font_profile docC7).2.2.2.1 (by decide), (C7_font_profile []).2.2.2.2.2 rfl⟩

/-- C8: for every document the page results carry exactly the page
numbers `1, 2, ..., N` in order, one result per source page. -/
theorem C8_page_numbers (doc : List Page) (e : Bool) :
    (parse_pdf doc e).map PageResult.page_number = List.range' 1 doc.length
  ∧ (parse_pdf doc e).length = doc.length := by
  constructor
  · exact parse_pdf_pages_numbers _ _ _ doc 0
  · have h := congrArg List.length
      (parse_pdf_pages_numbers (gather_font_sizes doc).head? (gather_font_sizes doc)[1]? e doc 0)
    rw [List.length_map, List.length_range'] at h
    exact h

/-- C9: a failing collaborator is absorbed at its call site: a raising
table extractor (on either flavor) yields an empty table list, an
undecodable image yields the failure-description chart, a raising OCR
yields the default-description chart, and a page whose table extractor
raises still carries its full text-derived and image-derived content. -/
theorem C9_collaborator_failures :
    (∀ f : String → Except Unit (List Grid),
      f "stream" = Except.error () → extract_tables f "stream" = [])
  ∧ (∀ f : String → Except Unit (List Grid), f "stream" = Except.ok ([] : List Grid) →
      f "lattice" = Except.error () → extract_tables f "stream" = [])
  ∧ (∀ e : Bool, image_item e ImgRes.decodeFail
      = ContentItem.chart none (some "image detected (failed to extract)") none)
  ∧ image_item true (ImgRes.ok (Except.error ()))
      = ContentItem.chart none (some "image detected") none
  ∧ (∀ (ss subs : Option ℤ) (e : Bool) (p : Page), pyStrip p.rawText ≠ "" →
      p.tables "stream" = Except.error () →
      page_content ss subs e p
        = extract_paragraphs_and_headings_from_page p.blocks ss subs 5
          ++ extract_images_and_ocr e p.images) := by
  refine ⟨?_, ?_, fun e => by cases e <;> rfl, by decide, ?_⟩
  · intro f hf
    unfold extract_tables resolved_tables
    rw [hf]
    rfl
  · intro f hf1 hf2
    simp [extract_tables, resolved_tables, hf1, hf2]
  · intro ss subs e p hraw htab
    unfold page_content
    rw [if_neg hraw]
    unfold extract_tables resolved_tables
    rw [htab]
    simp

theorem C9_witness :
    extract_tables (fun _ => Except.error ()) "stream" = []
  ∧ page_content none none false pageC9
      = extract_paragraphs_and_headings_from_page pageC9.blocks none none 5
        ++ extract_images_and_ocr false pageC9.images := by
  exact ⟨C9_collaborator_failures.1 _ rfl,
    C9_collaborator_failures.2.2.2.2 none none false pageC9 (by decide) rfl⟩

/-- C10 counterexample: an image block does not produce a chart with
description `"image block detected"`; the code's description string is
longer. -/
theorem C10_counterexample :
    extract_paragraphs_and_headings_from_page [Block.image] none none 5
      ≠ [ContentItem.chart none (some "image block detected") none] := by
  decide

/-- C10 amended: for every image block the builder flushes the
paragraph buffer and then emits exactly one chart item whose section is
the current section, whose description is the string
`"image block detected (image data handled separately)"`, and which
carries no chart data. -/
theorem C10_image_block :
    (∀ (ss subs : Option ℤ) (tol : ℤ) (st : BuilderState) (items : List ContentItem),
      step_block ss subs tol (st, items) Block.image
        = (⟨st.sec, st.sub, []⟩,
           items ++ flush_paragraph st.sec st.sub st.buf
             ++ [ContentItem.chart st.sec
                   (some "image block detected (image data handled separately)") none]))
  ∧ extract_paragraphs_and_headings_from_page
      [Block.text [⟨[⟨"intro text", 100, "Helv"⟩]⟩], Block.image] none none 5
      = [ContentItem.paragraph none none "intro text",
         ContentItem.chart none
           (some "image block detected (image data handled separately)") none] := by
  exact ⟨fun ss subs tol st items => rfl, by decide⟩
